import Mathlib

/-!
Verification of the Album Indexing & Link Reconciliation subsystem of
gphotos-sync (src/gphotos_sync/GoogleAlbumsSync.py), shallowly embedded in
Lean 4.  Dates are modelled as epoch seconds (Int); paths as lists of
segments or as strings; the local database and the filesystem as explicit
data threaded through the functions.
-/

namespace GPhotosSync

/-- Modelled from the spec: `Utils.MINIMUM_DATE` (the Utils module is absent
from src), the "minimum possible date" sentinel, as epoch seconds
(1900-01-01). -/
def MINIMUM_DATE : Int := -2208988800

/-- Modelled from the spec: `Utils.maximum_date()` (the Utils module is absent
from src), the "maximum possible date" sentinel, as epoch seconds
(9999-12-31 23:59:59). -/
def maximum_date : Int := 253402300799

/-- One media item of the album media listing, with the fields
`fetch_album_contents` reads (`GooglePhotosMedia` accessors). -/
structure MediaItemJson where
  id : String
  filename : String
  create_date : Int
  is_video : Bool
deriving DecidableEq, Repr

/-- The observable effects of `fetch_album_contents`: the
`put_album_file(album_id, media_id, position)` rows written, the media ids
written by `put_row` when `add_media_items` holds, and the returned
`(first_date, last_date)` pair. -/
structure FetchResult where
  rows : List (String × String × Int)
  mediaAdds : List String
  first_date : Int
  last_date : Int
deriving DecidableEq, Repr

/-- The loop body of `fetch_album_contents` (GoogleAlbumsSync.py lines
94-146) over the concatenation of all listed pages: `position` is
incremented for every listed item, then video items are skipped when
`include_video` is off; otherwise the AlbumFile row is recorded and the
running date range updated. -/
def fetchLoop (include_video add_media_items : Bool) (album_id : String) :
    List MediaItemJson → Int → List (String × String × Int) → List String →
    Int → Int → FetchResult
  | [], _, rows, adds, first_date, last_date => ⟨rows, adds, first_date, last_date⟩
  | m :: rest, position, rows, adds, first_date, last_date =>
    let position := position + 1
    if !include_video && m.is_video then
      fetchLoop include_video add_media_items album_id rest position rows adds
        first_date last_date
    else
      fetchLoop include_video add_media_items album_id rest position
        (rows ++ [(album_id, m.id, position)])
        (if add_media_items then adds ++ [m.id] else adds)
        (min m.create_date first_date) (max m.create_date last_date)

/-- `fetch_album_contents` (GoogleAlbumsSync.py lines 87-155), with the
paginated listing presented as the concatenation of its pages (`position`
is never reset between pages in the source). -/
def fetch_album_contents (include_video add_media_items : Bool)
    (album_id : String) (items : List MediaItemJson) : FetchResult :=
  fetchLoop include_video add_media_items album_id items (-1) [] []
    maximum_date MINIMUM_DATE

/-- The non-skipped ("kept") items of a listing: every item when
`include_video` holds, otherwise the non-video items. -/
def keptItems (include_video : Bool) (items : List MediaItemJson) :
    List MediaItemJson :=
  items.filter (fun m => include_video || !m.is_video)

theorem fetchLoop_rows (iv am : Bool) (aid : String) :
    ∀ (items : List MediaItemJson) (n : Nat) (k : Int), k = (n : Int) - 1 →
      ∀ (rows : List (String × String × Int)) (adds : List String) (f l : Int),
      (fetchLoop iv am aid items k rows adds f l).rows =
        rows ++ ((List.enumFrom n items).filter
            (fun p => iv || !p.2.is_video)).map
          (fun p => (aid, p.2.id, (p.1 : Int))) := by
  intro items
  induction items with
  | nil => intro n k hk rows adds f l; simp [fetchLoop]
  | cons m rest ih =>
    intro n k hk rows adds f l
    have hk1 : k + 1 = ((n + 1 : Nat) : Int) - 1 := by push_cast; omega
    have hkn : k + 1 = (n : Int) := by omega
    rcases Bool.eq_false_or_eq_true iv with hiv | hiv <;>
      subst hiv <;>
      rcases Bool.eq_false_or_eq_true m.is_video with hmv | hmv <;>
      simp only [fetchLoop, hmv, Bool.not_false, Bool.not_true,
        Bool.true_and, Bool.false_and, Bool.and_true, Bool.and_false,
        Bool.true_or, Bool.false_or, Bool.or_true, Bool.or_false,
        Bool.false_eq_true, Bool.true_eq_false, if_true, if_false,
        ite_true, ite_false, List.enumFrom, List.filter_cons] <;>
      rw [hkn] <;>
      rw [ih (n + 1) ((n : Int)) (by push_cast; ring)] <;>
      simp [List.append_assoc]

/-- A one-item video entry of an album listing, used as concrete test data. -/
def vidItem : MediaItemJson := ⟨"vid1", "clip.mp4", 1577836800, true⟩

/-- A one-item photo entry of an album listing, used as concrete test data. -/
def photoItem : MediaItemJson := ⟨"photo1", "IMG_1.jpg", 1592179200, false⟩

theorem fetchLoop_first (iv am : Bool) (aid : String) :
    ∀ (items : List MediaItemJson) (k : Int) (rows : List (String × String × Int))
      (adds : List String) (f l : Int),
      ((fetchLoop iv am aid items k rows adds f l).first_date = f ∨
        ∃ m ∈ items, (iv || !m.is_video) = true ∧
          (fetchLoop iv am aid items k rows adds f l).first_date = m.create_date) ∧
      (fetchLoop iv am aid items k rows adds f l).first_date ≤ f ∧
      ∀ m ∈ items, (iv || !m.is_video) = true →
        (fetchLoop iv am aid items k rows adds f l).first_date ≤ m.create_date := by
  intro items
  induction items with
  | nil => intro k rows adds f l; simp [fetchLoop]
  | cons m rest ih =>
    intro k rows adds f l
    by_cases hv : (!iv && m.is_video) = true
    · have hkeep : (iv || !m.is_video) = false := by
        revert hv; cases iv <;> cases m.is_video <;> simp
      simp only [fetchLoop, hv, if_true]
      obtain ⟨hd, hle, hall⟩ := ih (k + 1) rows adds f l
      refine ⟨?_, hle, ?_⟩
      · rcases hd with h | ⟨m', hm', hk', he'⟩
        · exact Or.inl h
        · exact Or.inr ⟨m', List.mem_cons_of_mem _ hm', hk', he'⟩
      · intro m' hm' hk'
        rcases List.mem_cons.mp hm' with rfl | hm'
        · rw [hkeep] at hk'; exact absurd hk' (by simp)
        · exact hall m' hm' hk'
    · have hkeep : (iv || !m.is_video) = true := by
        revert hv; cases iv <;> cases m.is_video <;> simp
      simp only [fetchLoop, hv, if_false, Bool.false_eq_true]
      obtain ⟨hd, hle, hall⟩ := ih (k + 1) (rows ++ [(aid, m.id, k + 1)])
        (if am then adds ++ [m.id] else adds) (min m.create_date f)
        (max m.create_date l)
      refine ⟨?_, le_trans hle (min_le_right _ _), ?_⟩
      · rcases hd with h | ⟨m', hm', hk', he'⟩
        · rcases min_choice m.create_date f with hmin | hmin
          · exact Or.inr ⟨m, List.mem_cons_self _ _, hkeep, by rw [h, hmin]⟩
          · exact Or.inl (by rw [h, hmin])
        · exact Or.inr ⟨m', List.mem_cons_of_mem _ hm', hk', he'⟩
      · intro m' hm' hk'
        rcases List.mem_cons.mp hm' with rfl | hm'
        · exact le_trans hle (min_le_left _ _)
        · exact hall m' hm' hk'

theorem fetchLoop_last (iv am : Bool) (aid : String) :
    ∀ (items : List MediaItemJson) (k : Int) (rows : List (String × String × Int))
      (adds : List String) (f l : Int),
      ((fetchLoop iv am aid items k rows adds f l).last_date = l ∨
        ∃ m ∈ items, (iv || !m.is_video) = true ∧
          (fetchLoop iv am aid items k rows adds f l).last_date = m.create_date) ∧
      l ≤ (fetchLoop iv am aid items k rows adds f l).last_date ∧
      ∀ m ∈ items, (iv || !m.is_video) = true →
        m.create_date ≤ (fetchLoop iv am aid items k rows adds f l).last_date := by
  intro items
  induction items with
  | nil => intro k rows adds f l; simp [fetchLoop]
  | cons m rest ih =>
    intro k rows adds f l
    by_cases hv : (!iv && m.is_video) = true
    · have hkeep : (iv || !m.is_video) = false := by
        revert hv; cases iv <;> cases m.is_video <;> simp
      simp only [fetchLoop, hv, if_true]
      obtain ⟨hd, hle, hall⟩ := ih (k + 1) rows adds f l
      refine ⟨?_, hle, ?_⟩
      · rcases hd with h | ⟨m', hm', hk', he'⟩
        · exact Or.inl h
        · exact Or.inr ⟨m', List.mem_cons_of_mem _ hm', hk', he'⟩
      · intro m' hm' hk'
        rcases List.mem_cons.mp hm' with rfl | hm'
        · rw [hkeep] at hk'; exact absurd hk' (by simp)
        · exact hall m' hm' hk'
    · have hkeep : (iv || !m.is_video) = true := by
        revert hv; cases iv <;> cases m.is_video <;> simp
      simp only [fetchLoop, hv, if_false, Bool.false_eq_true]
      obtain ⟨hd, hle, hall⟩ := ih (k + 1) (rows ++ [(aid, m.id, k + 1)])
        (if am then adds ++ [m.id] else adds) (min m.create_date f)
        (max m.create_date l)
      refine ⟨?_, le_trans (le_max_right _ _) hle, ?_⟩
      · rcases hd with h | ⟨m', hm', hk', he'⟩
        · rcases max_choice m.create_date l with hmax | hmax
          · exact Or.inr ⟨m, List.mem_cons_self _ _, hkeep, by rw [h, hmax]⟩
          · exact Or.inl (by rw [h, hmax])
        · exact Or.inr ⟨m', List.mem_cons_of_mem _ hm', hk', he'⟩
      · intro m' hm' hk'
        rcases List.mem_cons.mp hm' with rfl | hm'
        · exact le_trans (le_max_left _ _) hle
        · exact hall m' hm' hk'

theorem mem_keptItems {iv : Bool} {items : List MediaItemJson} {m : MediaItemJson} :
    m ∈ keptItems iv items ↔ m ∈ items ∧ (iv || !m.is_video) = true := by
  simp [keptItems, List.mem_filter]

theorem fetch_dates_char (iv am : Bool) (aid : String) (items : List MediaItemJson)
    (hb : ∀ m ∈ items, MINIMUM_DATE ≤ m.create_date ∧ m.create_date ≤ maximum_date) :
    (keptItems iv items = [] →
      (fetch_album_contents iv am aid items).first_date = maximum_date ∧
      (fetch_album_contents iv am aid items).last_date = MINIMUM_DATE) ∧
    (keptItems iv items ≠ [] →
      (∃ m ∈ keptItems iv items,
        (fetch_album_contents iv am aid items).first_date = m.create_date) ∧
      (∀ m ∈ keptItems iv items,
        (fetch_album_contents iv am aid items).first_date ≤ m.create_date) ∧
      (∃ m ∈ keptItems iv items,
        (fetch_album_contents iv am aid items).last_date = m.create_date) ∧
      (∀ m ∈ keptItems iv items,
        m.create_date ≤ (fetch_album_contents iv am aid items).last_date)) := by
  obtain ⟨hfd, hfle, hfall⟩ :=
    fetchLoop_first iv am aid items (-1) [] [] maximum_date MINIMUM_DATE
  obtain ⟨hld, hlle, hlall⟩ :=
    fetchLoop_last iv am aid items (-1) [] [] maximum_date MINIMUM_DATE
  constructor
  · intro hempty
    constructor
    · rcases hfd with h | ⟨m, hm, hk, _⟩
      · exact h
      · exact absurd (mem_keptItems.mpr ⟨hm, hk⟩) (by simp [hempty])
    · rcases hld with h | ⟨m, hm, hk, _⟩
      · exact h
      · exact absurd (mem_keptItems.mpr ⟨hm, hk⟩) (by simp [hempty])
  · intro hne
    obtain ⟨m₀, hm₀⟩ := List.exists_mem_of_ne_nil _ hne
    obtain ⟨hm₀i, hm₀k⟩ := mem_keptItems.mp hm₀
    have hffacts : ∀ m ∈ keptItems iv items,
        (fetch_album_contents iv am aid items).first_date ≤ m.create_date := by
      intro m hm
      obtain ⟨hmi, hmk⟩ := mem_keptItems.mp hm
      exact hfall m hmi hmk
    have hlfacts : ∀ m ∈ keptItems iv items,
        m.create_date ≤ (fetch_album_contents iv am aid items).last_date := by
      intro m hm
      obtain ⟨hmi, hmk⟩ := mem_keptItems.mp hm
      exact hlall m hmi hmk
    refine ⟨?_, hffacts, ?_, hlfacts⟩
    · rcases hfd with h | ⟨m, hm, hk, he⟩
      · refine ⟨m₀, hm₀, le_antisymm (hffacts m₀ hm₀) ?_⟩
        have h' : (fetch_album_contents iv am aid items).first_date = maximum_date := h
        rw [h']
        exact (hb m₀ hm₀i).2
      · exact ⟨m, mem_keptItems.mpr ⟨hm, hk⟩, he⟩
    · rcases hld with h | ⟨m, hm, hk, he⟩
      · refine ⟨m₀, hm₀, le_antisymm ?_ (hlfacts m₀ hm₀)⟩
        have h' : (fetch_album_contents iv am aid items).last_date = MINIMUM_DATE := h
        rw [h']
        exact (hb m₀ hm₀i).1
      · exact ⟨m, mem_keptItems.mpr ⟨hm, hk⟩, he⟩

theorem fetch_dates_perm (iv am : Bool) (aid : String)
    (items items₂ : List MediaItemJson)
    (hb : ∀ m ∈ items, MINIMUM_DATE ≤ m.create_date ∧ m.create_date ≤ maximum_date)
    (hp : items.Perm items₂) :
    (fetch_album_contents iv am aid items₂).first_date =
      (fetch_album_contents iv am aid items).first_date ∧
    (fetch_album_contents iv am aid items₂).last_date =
      (fetch_album_contents iv am aid items).last_date := by
  have hb₂ : ∀ m ∈ items₂, MINIMUM_DATE ≤ m.create_date ∧ m.create_date ≤ maximum_date :=
    fun m hm => hb m (hp.mem_iff.mpr hm)
  have hkp : (keptItems iv items).Perm (keptItems iv items₂) := hp.filter _
  obtain ⟨hemp1, hne1⟩ := fetch_dates_char iv am aid items hb
  obtain ⟨hemp2, hne2⟩ := fetch_dates_char iv am aid items₂ hb₂
  by_cases hk : keptItems iv items = []
  · have hk2 : keptItems iv items₂ = [] := by
      rw [hk] at hkp; exact hkp.symm.eq_nil
    obtain ⟨hf1, hl1⟩ := hemp1 hk
    obtain ⟨hf2, hl2⟩ := hemp2 hk2
    rw [hf1, hl1, hf2, hl2]; exact ⟨rfl, rfl⟩
  · have hk2 : keptItems iv items₂ ≠ [] := by
      intro h; rw [h] at hkp; exact hk hkp.eq_nil
    obtain ⟨⟨ma, hma, hea⟩, halla, ⟨mb, hmb, heb⟩, hallb⟩ := hne1 hk
    obtain ⟨⟨mc, hmc, hec⟩, hallc, ⟨md, hmd, hed⟩, halld⟩ := hne2 hk2
    constructor
    · apply le_antisymm
      · rw [hea]; exact hallc ma (hkp.mem_iff.mp hma)
      · rw [hec]; exact halla mc (hkp.mem_iff.mpr hmc)
    · apply le_antisymm
      · rw [hed]; exact hallb md (hkp.mem_iff.mpr hmd)
      · rw [heb]; exact halld mb (hkp.mem_iff.mp hmb)

/-- Claim C2 counterexample: with include-video disabled and the listing
[video, photo], the single recorded AlbumFile row carries position 1 (the
skipped video consumed position 0), so the recorded positions are not the
contiguous sequence 0, 1, 2, ... over the filtered sequence as the claim
states. -/
theorem C2_counterexample :
    ((fetch_album_contents false false "album1" [vidItem, photoItem]).rows.map
        (fun r => r.2.2)) = [(1 : Int)] ∧
    ((fetch_album_contents false false "album1" [vidItem, photoItem]).rows.map
        (fun r => r.2.2)) ≠
      (List.range (fetch_album_contents false false "album1"
          [vidItem, photoItem]).rows.length).map (fun i => (i : Int)) := by
  constructor
  · rfl
  · decide

/-- Claim C2 (amended): for every album fetched by `fetch_album_contents`, each
non-skipped media item is recorded into the AlbumFile relation with a
position equal to its 0-based index within the UNFILTERED listing sequence:
a skipped video item does consume a position, leaving a gap in the recorded
positions. -/
theorem C2_amended (iv am : Bool) (aid : String) (items : List MediaItemJson) :
    (fetch_album_contents iv am aid items).rows =
      ((items.enum.filter (fun p => iv || !p.2.is_video)).map
        (fun p => (aid, p.2.id, (p.1 : Int)))) := by
  have h := fetchLoop_rows iv am aid items 0 (-1) (by norm_num) [] []
    maximum_date MINIMUM_DATE
  simpa [fetch_album_contents, List.enum] using h

/-- Claim C8: `fetch_album_contents` returns `(first_date, last_date)` equal to the
(minimum, maximum) of `create_date` over all non-skipped items, independent
of the order in which the listing yields them; for an album with no
non-skipped items it returns the sentinel pair (maximum possible date,
minimum possible date), so `first_date > last_date` signals no
observations. -/
theorem C8_date_range (iv am : Bool) (aid : String) (items : List MediaItemJson)
    (hb : ∀ m ∈ items, MINIMUM_DATE ≤ m.create_date ∧ m.create_date ≤ maximum_date) :
    (keptItems iv items = [] →
      (fetch_album_contents iv am aid items).first_date = maximum_date ∧
      (fetch_album_contents iv am aid items).last_date = MINIMUM_DATE ∧
      (fetch_album_contents iv am aid items).last_date <
        (fetch_album_contents iv am aid items).first_date) ∧
    (keptItems iv items ≠ [] →
      (∃ m ∈ keptItems iv items,
        (fetch_album_contents iv am aid items).first_date = m.create_date) ∧
      (∀ m ∈ keptItems iv items,
        (fetch_album_contents iv am aid items).first_date ≤ m.create_date) ∧
      (∃ m ∈ keptItems iv items,
        (fetch_album_contents iv am aid items).last_date = m.create_date) ∧
      (∀ m ∈ keptItems iv items,
        m.create_date ≤ (fetch_album_contents iv am aid items).last_date)) ∧
    (∀ items₂, items.Perm items₂ →
      (fetch_album_contents iv am aid items₂).first_date =
        (fetch_album_contents iv am aid items).first_date ∧
      (fetch_album_contents iv am aid items₂).last_date =
        (fetch_album_contents iv am aid items).last_date) := by
  obtain ⟨hemp, hne⟩ := fetch_dates_char iv am aid items hb
  refine ⟨?_, hne, fun items₂ hp => fetch_dates_perm iv am aid items items₂ hb hp⟩
  intro hk
  obtain ⟨hf, hl⟩ := hemp hk
  refine ⟨hf, hl, ?_⟩
  rw [hf, hl]
  decide

/-- Witness for C8 at the spec's example: items dated 2020-01-01,
2020-06-15, 2020-12-31 (listed out of order), include-video on. -/
theorem C8_witness :
    (keptItems true [⟨"b", "b.jpg", 1592179200, false⟩,
        ⟨"a", "a.jpg", 1577836800, false⟩,
        ⟨"c", "c.jpg", 1609372800, false⟩] = [] →
      (fetch_album_contents true false "album1"
          [⟨"b", "b.jpg", 1592179200, false⟩,
           ⟨"a", "a.jpg", 1577836800, false⟩,
           ⟨"c", "c.jpg", 1609372800, false⟩]).first_date = maximum_date ∧
      (fetch_album_contents true false "album1"
          [⟨"b", "b.jpg", 1592179200, false⟩,
           ⟨"a", "a.jpg", 1577836800, false⟩,
           ⟨"c", "c.jpg", 1609372800, false⟩]).last_date = MINIMUM_DATE ∧
      (fetch_album_contents true false "album1"
          [⟨"b", "b.jpg", 1592179200, false⟩,
           ⟨"a", "a.jpg", 1577836800, false⟩,
           ⟨"c", "c.jpg", 1609372800, false⟩]).last_date <
        (fetch_album_contents true false "album1"
          [⟨"b", "b.jpg", 1592179200, false⟩,
           ⟨"a", "a.jpg", 1577836800, false⟩,
           ⟨"c", "c.jpg", 1609372800, false⟩]).first_date) ∧
    (keptItems true [⟨"b", "b.jpg", 1592179200, false⟩,
        ⟨"a", "a.jpg", 1577836800, false⟩,
        ⟨"c", "c.jpg", 1609372800, false⟩] ≠ [] →
      (∃ m ∈ keptItems true [⟨"b", "b.jpg", 1592179200, false⟩,
          ⟨"a", "a.jpg", 1577836800, false⟩,
          ⟨"c", "c.jpg", 1609372800, false⟩],
        (fetch_album_contents true false "album1"
          [⟨"b", "b.jpg", 1592179200, false⟩,
           ⟨"a", "a.jpg", 1577836800, false⟩,
           ⟨"c", "c.jpg", 1609372800, false⟩]).first_date = m.create_date) ∧
      (∀ m ∈ keptItems true [⟨"b", "b.jpg", 1592179200, false⟩,
          ⟨"a", "a.jpg", 1577836800, false⟩,
          ⟨"c", "c.jpg", 1609372800, false⟩],
        (fetch_album_contents true false "album1"
          [⟨"b", "b.jpg", 1592179200, false⟩,
           ⟨"a", "a.jpg", 1577836800, false⟩,
           ⟨"c", "c.jpg", 1609372800, false⟩]).first_date ≤ m.create_date) ∧
      (∃ m ∈ keptItems true [⟨"b", "b.jpg", 1592179200, false⟩,
          ⟨"a", "a.jpg", 1577836800, false⟩,
          ⟨"c", "c.jpg", 1609372800, false⟩],
        (fetch_album_contents true false "album1"
          [⟨"b", "b.jpg", 1592179200, false⟩,
           ⟨"a", "a.jpg", 1577836800, false⟩,
           ⟨"c", "c.jpg", 1609372800, false⟩]).last_date = m.create_date) ∧
      (∀ m ∈ keptItems true [⟨"b", "b.jpg", 1592179200, false⟩,
          ⟨"a", "a.jpg", 1577836800, false⟩,
          ⟨"c", "c.jpg", 1609372800, false⟩],
        m.create_date ≤ (fetch_album_contents true false "album1"
          [⟨"b", "b.jpg", 1592179200, false⟩,
           ⟨"a", "a.jpg", 1577836800, false⟩,
           ⟨"c", "c.jpg", 1609372800, false⟩]).last_date)) ∧
    (∀ items₂, ([⟨"b", "b.jpg", 1592179200, false⟩,
        ⟨"a", "a.jpg", 1577836800, false⟩,
        ⟨"c", "c.jpg", 1609372800, false⟩] :
          List MediaItemJson).Perm items₂ →
      (fetch_album_contents true false "album1" items₂).first_date =
        (fetch_album_contents true false "album1"
          [⟨"b", "b.jpg", 1592179200, false⟩,
           ⟨"a", "a.jpg", 1577836800, false⟩,
           ⟨"c", "c.jpg", 1609372800, false⟩]).first_date ∧
      (fetch_album_contents true false "album1" items₂).last_date =
        (fetch_album_contents true false "album1"
          [⟨"b", "b.jpg", 1592179200, false⟩,
           ⟨"a", "a.jpg", 1577836800, false⟩,
           ⟨"c", "c.jpg", 1609372800, false⟩]).last_date) :=
  C8_date_range true false "album1"
    [⟨"b", "b.jpg", 1592179200, false⟩,
     ⟨"a", "a.jpg", 1577836800, false⟩,
     ⟨"c", "c.jpg", 1609372800, false⟩] (by decide)

/-- One album of the album listing, with the fields `index_albums_type`
reads.  `GoogleAlbumMedia` is absent from src; per the spec its
`description` accessor reports the string "none" when the album has no
title. -/
structure AlbumJson where
  id : String
  orig_name : String
  description : String
  size : Nat
deriving DecidableEq, Repr

/-- The outcome of the skip/index decision chain of `index_albums_type` for
one listed album. -/
inductive AlbumAction where
  | skipName
  | skipRegex
  | skipNoTitle
  | skipIndexed
  | index
deriving DecidableEq, Repr

/-- The configuration fields `index_albums_type` reads.  `regexSearch`
abstracts Python's case-insensitive `re.search` (the regex engine is
external); an empty `album` or `album_regex` string is falsy in Python and
means the corresponding filter is unset. -/
structure IndexConfig where
  album : String
  album_regex : String
  regexSearch : String → String → Bool
  flush : Bool

/-- The skip/index decision chain of `index_albums_type`
(GoogleAlbumsSync.py lines 200-243) for one listed album:
`indexed_album` is the stored Album row's size when `get_album` finds one,
`already_indexed` compares it against the freshly listed size, and the
if/elif chain applies the first matching rule. -/
def indexAlbumDecision (cfg : IndexConfig) (allow_null_title : Bool)
    (indexed_album : Option Nat) (album : AlbumJson) : AlbumAction :=
  let already_indexed : Bool :=
    match indexed_album with
    | some s => decide (s = album.size)
    | none => false
  if cfg.album ≠ "" ∧ cfg.album ≠ album.orig_name then AlbumAction.skipName
  else if cfg.album_regex ≠ "" ∧
      cfg.regexSearch cfg.album_regex album.orig_name = false then
    AlbumAction.skipRegex
  else if allow_null_title = false ∧ album.description = "none" then
    AlbumAction.skipNoTitle
  else if already_indexed = true ∧ cfg.flush = false then AlbumAction.skipIndexed
  else AlbumAction.index

/-- The effects of one album's decision in `index_albums_type`: whether
`fetch_album_contents` is called and whether a `GoogleAlbumsRow` is written
by `put_row` — both happen exactly in the final `else` branch (lines
226-243). -/
def albumEffects (a : AlbumAction) : Bool × Bool :=
  match a with
  | AlbumAction.index => (true, true)
  | _ => (false, false)

/-- One invocation of `index_albums_type` as made by `index_album_media`:
the listing key, the `allow_null_title` argument, and the effective
`add_media_items` value used for `fetch_album_contents` calls (after the
favourites-only override at lines 186-188). -/
structure IndexPass where
  item_key : String
  allow_null_title : Bool
  add_media_items : Bool
deriving DecidableEq, Repr

/-- The favourites-only override inside `index_albums_type`
(GoogleAlbumsSync.py lines 186-188): `add_media_items` is forced false when
the run is restricted to favourites. -/
def effectiveAddMediaItems (favourites add_media_items : Bool) : Bool :=
  if favourites then false else add_media_items

/-- `index_album_media` (GoogleAlbumsSync.py lines 157-170): when shared
albums are enabled the shared-album listing is indexed first with
`allow_null_title = False` and `add_media_items = True`, then the owned
listing with `allow_null_title = True` and `add_media_items =
self.album_index`; each pass's `add_media_items` field holds the effective
value after the favourites override. -/
def index_album_media (shared_albums favourites album_index : Bool) :
    List IndexPass :=
  (if shared_albums then
    [⟨"sharedAlbums", false, effectiveAddMediaItems favourites true⟩]
   else []) ++
  [⟨"albums", true, effectiveAddMediaItems favourites album_index⟩]

/-- Claim C1 counterexample: with shared albums enabled and favourites-only set,
the shared-album pass calls `fetch_album_contents` with
`add_media_items = false`, not true: the favourites override inside
`index_albums_type` applies to the shared pass too, contradicting the
claim that the shared pass is unaffected by the favourites-only setting. -/
theorem C1_counterexample :
    (index_album_media true true true).map (fun p => p.add_media_items) =
      [false, false] ∧
    ¬ (∀ p ∈ index_album_media true true true,
        p.item_key = "sharedAlbums" → p.add_media_items = true) := by
  constructor
  · rfl
  · intro h
    have := h ⟨"sharedAlbums", false, false⟩ (by simp [index_album_media,
      effectiveAddMediaItems]) rfl
    simp at this

/-- Claim C1 (amended): with shared albums enabled, the shared-album pass always
runs before the owned-album pass; the shared pass uses
`allow_null_title = false` and calls `fetch_album_contents` with
`add_media_items = true` unless the run is restricted to favourites-only
(in which case content addition is disabled for both passes); only the
owned pass's content addition is additionally gated by the album-index
setting. -/
theorem C1_amended (favourites album_index : Bool) :
    index_album_media true favourites album_index =
      [⟨"sharedAlbums", false, !favourites⟩,
       ⟨"albums", true, !favourites && album_index⟩] := by
  cases favourites <;> cases album_index <;> rfl

/-- A configuration with no album-name filter, no regex filter and no
forced flush, used as concrete test data (the abstract regex matcher
accepts everything). -/
def cfgNoFilters : IndexConfig := ⟨"", "", fun _ _ => true, false⟩

/-- A listed album with no title (its `description` reports "none"), used
as concrete test data. -/
def albumUntitled : AlbumJson := ⟨"alb1", "", "none", 3⟩

/-- A titled listed album of size 5, used as concrete test data. -/
def albumTitled : AlbumJson := ⟨"alb2", "Holiday", "Holiday", 5⟩

/-- Claim C3 counterexample: the source passes `allow_null_title = False` for the
SHARED listing and `True` for the owned listing ("Shared (titled) Albums"),
so an untitled album from the shared listing is skipped while an untitled
album from the owned listing is indexed — the opposite of the claim. -/
theorem C3_counterexample :
    ((index_album_media true false true).map
        (fun p => (p.item_key, p.allow_null_title))) =
      [("sharedAlbums", false), ("albums", true)] ∧
    indexAlbumDecision cfgNoFilters false none albumUntitled =
      AlbumAction.skipNoTitle ∧
    indexAlbumDecision cfgNoFilters true none albumUntitled =
      AlbumAction.index := by
  refine ⟨rfl, ?_, ?_⟩ <;> rfl

/-- Claim C3 (amended): for every listed album with no title, `index_albums_type`
skips it exactly when the listing kind disallows untitled albums, where the
SHARED-album listing requires a title and the OWNED-album listing does not:
an untitled album from the shared listing is skipped, while an untitled,
not-yet-indexed album from the owned listing is indexed. -/
theorem C3_amended (cfg : IndexConfig) (album : AlbumJson) (stored : Option Nat)
    (h1 : cfg.album = "") (h2 : cfg.album_regex = "")
    (h3 : album.description = "none") :
    indexAlbumDecision cfg false stored album = AlbumAction.skipNoTitle ∧
    (stored = none → indexAlbumDecision cfg true stored album =
      AlbumAction.index) ∧
    (∀ f a : Bool, (index_album_media true f a).map
        (fun p => (p.item_key, p.allow_null_title)) =
      [("sharedAlbums", false), ("albums", true)]) := by
  refine ⟨?_, ?_, ?_⟩
  · simp [indexAlbumDecision, h1, h2, h3]
  · rintro rfl
    simp [indexAlbumDecision, h1, h2]
  · intro f a
    cases f <;> cases a <;> rfl

/-- Witness for C3 (amended) at a concrete untitled album and the
no-filter configuration. -/
theorem C3_witness :
    indexAlbumDecision cfgNoFilters false none albumUntitled =
      AlbumAction.skipNoTitle ∧
    (none = (none : Option Nat) → indexAlbumDecision cfgNoFilters true none
      albumUntitled = AlbumAction.index) ∧
    (∀ f a : Bool, (index_album_media true f a).map
        (fun p => (p.item_key, p.allow_null_title)) =
      [("sharedAlbums", false), ("albums", true)]) :=
  C3_amended cfgNoFilters albumUntitled none rfl rfl rfl

/-- Claim C5: for every listed album that passes the name-filter, regex-filter
and title rules, if a stored Album row exists with the same size as the
fresh listing and flush was not requested, the album is skipped (no
`fetch_album_contents` call, no Album row written); if the stored size
differs at all, the album's contents are fully re-fetched. -/
theorem C5_skip_policy (cfg : IndexConfig) (ant : Bool) (album : AlbumJson)
    (s : Nat)
    (h1 : ¬(cfg.album ≠ "" ∧ cfg.album ≠ album.orig_name))
    (h2 : ¬(cfg.album_regex ≠ "" ∧
      cfg.regexSearch cfg.album_regex album.orig_name = false))
    (h3 : ¬(ant = false ∧ album.description = "none")) :
    (s = album.size → cfg.flush = false →
      indexAlbumDecision cfg ant (some s) album = AlbumAction.skipIndexed ∧
      albumEffects (indexAlbumDecision cfg ant (some s) album) =
        (false, false)) ∧
    (s ≠ album.size →
      indexAlbumDecision cfg ant (some s) album = AlbumAction.index ∧
      albumEffects (indexAlbumDecision cfg ant (some s) album) =
        (true, true)) := by
  constructor
  · rintro rfl hflush
    have hd : indexAlbumDecision cfg ant (some album.size) album =
        AlbumAction.skipIndexed := by
      simp [indexAlbumDecision, h1, h2, h3, hflush]
    exact ⟨hd, by rw [hd]; rfl⟩
  · intro hs
    have hd : indexAlbumDecision cfg ant (some s) album =
        AlbumAction.index := by
      simp [indexAlbumDecision, h1, h2, h3, hs]
    exact ⟨hd, by rw [hd]; rfl⟩

/-- Witness for C5 at the no-filter configuration and a titled album of
size 5 with stored size 5. -/
theorem C5_witness :
    ((5 : Nat) = albumTitled.size → cfgNoFilters.flush = false →
      indexAlbumDecision cfgNoFilters true (some 5) albumTitled =
        AlbumAction.skipIndexed ∧
      albumEffects (indexAlbumDecision cfgNoFilters true (some 5)
        albumTitled) = (false, false)) ∧
    ((5 : Nat) ≠ albumTitled.size →
      indexAlbumDecision cfgNoFilters true (some 5) albumTitled =
        AlbumAction.index ∧
      albumEffects (indexAlbumDecision cfgNoFilters true (some 5)
        albumTitled) = (true, true)) :=
  C5_skip_policy cfgNoFilters true albumTitled 5 (by decide)
    (by simp [cfgNoFilters]) (by decide)

/-- A calendar date, the part of a datetime that the album-folder naming
formats read. -/
structure Date where
  year : Nat
  month : Nat
  day : Nat
deriving DecidableEq, Repr

/-- Decimal rendering of a number left-padded with zeros to a width, as
strftime does for %Y, %m and %d. -/
def zeroPad (w : Nat) (n : Nat) : String :=
  let s := toString n
  ⟨List.replicate (w - s.length) '0' ++ s.data⟩

/-- The strftime directives used by `album_folder_name`: %Y (4-digit year),
%m (2-digit month), %d (2-digit day); other characters are copied
verbatim. -/
def strfChars (d : Date) : List Char → List Char
  | '%' :: 'Y' :: rest => (zeroPad 4 d.year).data ++ strfChars d rest
  | '%' :: 'm' :: rest => (zeroPad 2 d.month).data ++ strfChars d rest
  | '%' :: 'd' :: rest => (zeroPad 2 d.day).data ++ strfChars d rest
  | c :: rest => c :: strfChars d rest
  | [] => []

/-- Modelled from the spec: `Utils.safe_str_time` (the Utils module is
absent from src) formats a datetime with an strftime pattern. -/
def safe_str_time (d : Date) (fmt : String) : String :=
  ⟨strfChars d fmt.data⟩

/-- Python `str.format` for the numbered-hole templates used by
`album_folder_name` (an opening brace, one digit, a closing brace is
replaced by the corresponding argument; other characters are copied
verbatim). -/
def pyformatChars (args : List String) : List Char → List Char
  | '{' :: c :: '}' :: rest =>
    if c.isDigit then (args.getD (c.toNat - 48) "").data ++ pyformatChars args rest
    else '{' :: c :: '}' :: pyformatChars args rest
  | c :: rest => c :: pyformatChars args rest
  | [] => []

/-- Python `str.format` on a template string. -/
def pyformat (fmt : String) (args : List String) : String :=
  ⟨pyformatChars args fmt.data⟩

/-- The characters stripped by filename sanitization. -/
def illegalChars : List Char := ['!', '*', '?', ':', '<', '>', '|', '/', '\\']

/-- Modelled from the spec: `Checks.valid_file_name` (the Checks module is
absent from src) sanitizes a title against filesystem-legal-name rules,
stripping illegal punctuation such as the exclamation mark. -/
def valid_file_name (s : String) : String :=
  ⟨s.data.filter (fun c => !illegalChars.contains c)⟩

/-- The configuration fields `album_folder_name` reads; `month_format` and
`path_format` are `none` when unset (falsy in Python, triggering the
hard-coded fallbacks). -/
structure NamerConfig where
  omit_album_date : Bool
  use_start_date : Bool
  use_flat_path : Bool
  month_format : Option String
  path_format : Option String

/-- The relative path part computed by `album_folder_name`
(GoogleAlbumsSync.py lines 258-274): sanitized title alone when album
dates are omitted, else year and formatted month combined with the flat or
nested template. -/
def album_rel_path (cfg : NamerConfig) (album_name : String)
    (start_date end_date : Date) : String :=
  let name := valid_file_name album_name
  if cfg.omit_album_date then name
  else
    let d := if cfg.use_start_date then start_date else end_date
    let year := safe_str_time d "%Y"
    let month := safe_str_time d (cfg.month_format.getD "%m%d")
    if cfg.use_flat_path then
      pyformat (cfg.path_format.getD "{0}-{1} {2}") [year, month, name]
    else
      year ++ "/" ++ pyformat (cfg.path_format.getD "{0} {1}") [month, name]

/-- `album_folder_name` (GoogleAlbumsSync.py lines 255-281): the relative
path appended under the shared-album root when `shared`, else under the
album root. -/
def album_folder_name (cfg : NamerConfig) (albums_root shared_root : String)
    (album_name : String) (start_date end_date : Date) (shared : Bool) :
    String :=
  (if shared then shared_root else albums_root) ++ "/" ++
    album_rel_path cfg album_name start_date end_date

/-- Modelled from the spec: the Settings default month format (the Settings
module is absent from src; the spec's naming property and the repository's
tests use the month-only pattern, and default formats mean `path_format`
unset). -/
def settings_default_month_format : Option String := some "%m"

/-- Modelled from the spec: the Settings default path format is unset, so
the hard-coded nested template "month title" under a year directory is
used. -/
def settings_default_path_format : Option String := none

/-- Claim C9: `album_folder_name` on title "Trip!" with shared = false,
use_start_date = false, end_date = 2020-06-15, nested (non-flat) mode,
omit_album_date = false and the default month and path formats returns the
relative folder "2020/06 Trip" under the album root; sanitization strips
the exclamation mark. -/
theorem C9_album_folder_name :
    album_rel_path
        ⟨false, false, false, settings_default_month_format,
          settings_default_path_format⟩
        "Trip!" ⟨2020, 1, 1⟩ ⟨2020, 6, 15⟩ = "2020/06 Trip" ∧
    album_folder_name
        ⟨false, false, false, settings_default_month_format,
          settings_default_path_format⟩
        "albums" "sharedAlbums" "Trip!" ⟨2020, 1, 1⟩ ⟨2020, 6, 15⟩ false =
      "albums" ++ "/" ++ "2020/06 Trip" := by
  constructor <;> rfl

/-- The opening phase of `create_album_content_links` (GoogleAlbumsSync.py
lines 289-307) over the existence state of the two root directories: in
rebuild (non-preserve) mode both trees are removed with rmtree; then each
root is created when absent (mkdir with parents, exist_ok); then
`re_download` is computed as the album root NOT existing.  Returns the two
roots' existence after the mkdir phase and the `re_download` flag, which is
the `download_again` argument of the subsequent `get_album_files` query. -/
def create_links_setup (preserve albums_root_exists shared_root_exists : Bool) :
    Bool × Bool × Bool :=
  let albums1 := if !preserve then false else albums_root_exists
  let shared1 := if !preserve then false else shared_root_exists
  let albums2 := if !albums1 then true else albums1
  let shared2 := if !shared1 then true else shared1
  let re_download := !albums2
  (albums2, shared2, re_download)

/-- Claim C10: for every call to `create_album_content_links`, the album root
directories are created (when absent) before `re_download` is computed from
the album root's existence, so `re_download` is always false and
`get_album_files` is always queried with `download_again = false` — in
every mode and from every initial filesystem state, including a
rebuild-mode run right after the album tree was deleted. -/
theorem C10_re_download_false (preserve albums_root_exists
    shared_root_exists : Bool) :
    create_links_setup preserve albums_root_exists shared_root_exists =
      (true, true, false) := by
  cases preserve <;> cases albums_root_exists <;> cases shared_root_exists <;> rfl

/-- The state `create_album_content_links` examines for one AlbumFile row
(GoogleAlbumsSync.py lines 343-405): the link path and its current
filesystem entry (follow-symlink existence, symlink-ness, readlink result
— `none` models an OSError on a broken link — and inode), the target media
path and its existence and inode, and the computed relative path string. -/
structure LinkCtx where
  use_hardlinks : Bool
  preserve : Bool
  linkPath : String
  mediaPath : String
  relative_filename : String
  linkExists : Bool
  linkIsSymlink : Bool
  linkReadTarget : Option String
  linkInode : Nat
  mediaExists : Bool
  mediaInode : Nat
deriving DecidableEq, Repr

/-- The per-item linking step of `create_album_content_links`
(GoogleAlbumsSync.py lines 371-405): when the target media file exists,
preserve mode first checks whether the existing entry already represents
the target (same inode in hardlink mode; a symlink whose readlink equals
the computed relative path in symlink mode); if a link must be (re)created,
an existing entry at the link path is unlinked only when it is a symlink or
hardlink mode is in use.  Returns the unlinked path (if any) and whether a
link creation was attempted. -/
def processLink (c : LinkCtx) : Option String × Bool :=
  if c.mediaExists then
    let create_link : Bool :=
      if c.preserve && c.linkExists then
        if c.use_hardlinks then
          !(c.linkExists && c.mediaExists &&
            decide (c.linkInode = c.mediaInode))
        else
          !(c.linkIsSymlink &&
            decide (c.linkReadTarget = some c.relative_filename))
      else true
    if create_link then
      if c.linkExists then
        if c.linkIsSymlink || c.use_hardlinks then (some c.linkPath, true)
        else (none, true)
      else (none, true)
    else (none, false)
  else (none, false)

/-- Claim C4: in the per-item replacement step, an existing entry at the link
path is unlinked only when that entry is itself a symbolic link or hardlink
mode is in use; in symlink mode a non-link entry at the link path is left
in place; and the only path ever unlinked is the link path — never the
underlying media file the link points to. -/
theorem C4_link_removal_safety (c : LinkCtx)
    (hne : c.mediaPath ≠ c.linkPath) :
    ((processLink c).1 ≠ none →
      c.linkIsSymlink = true ∨ c.use_hardlinks = true) ∧
    (∀ p, (processLink c).1 = some p → p = c.linkPath) ∧
    (processLink c).1 ≠ some c.mediaPath ∧
    (c.use_hardlinks = false → c.linkIsSymlink = false →
      (processLink c).1 = none) := by
  rcases Bool.eq_false_or_eq_true c.mediaExists with hm | hm <;>
    rcases Bool.eq_false_or_eq_true c.preserve with hp | hp <;>
    rcases Bool.eq_false_or_eq_true c.linkExists with hl | hl <;>
    rcases Bool.eq_false_or_eq_true c.use_hardlinks with hh | hh <;>
    rcases Bool.eq_false_or_eq_true c.linkIsSymlink with hs | hs <;>
    by_cases hi : c.linkInode = c.mediaInode <;>
    by_cases hr : c.linkReadTarget = some c.relative_filename <;>
    simp [processLink, hm, hp, hl, hh, hs, hi, hr, Ne.symm hne]

/-- Witness for C4 at a concrete symlink-mode state where the entry at the
link path is a plain file: nothing is unlinked. -/
theorem C4_witness :
    ((processLink ⟨false, true, "albums/2020/06 Trip/0000_IMG_1.jpg",
        "photos/2020/06/IMG_1.jpg", "../../../photos/2020/06/IMG_1.jpg",
        true, false, none, 7, true, 5⟩).1 ≠ none →
      (false : Bool) = true ∨ (false : Bool) = true) ∧
    (∀ p, (processLink ⟨false, true, "albums/2020/06 Trip/0000_IMG_1.jpg",
        "photos/2020/06/IMG_1.jpg", "../../../photos/2020/06/IMG_1.jpg",
        true, false, none, 7, true, 5⟩).1 = some p →
      p = "albums/2020/06 Trip/0000_IMG_1.jpg") ∧
    (processLink ⟨false, true, "albums/2020/06 Trip/0000_IMG_1.jpg",
        "photos/2020/06/IMG_1.jpg", "../../../photos/2020/06/IMG_1.jpg",
        true, false, none, 7, true, 5⟩).1 ≠
      some "photos/2020/06/IMG_1.jpg" ∧
    ((false : Bool) = false → (false : Bool) = false →
      (processLink ⟨false, true, "albums/2020/06 Trip/0000_IMG_1.jpg",
        "photos/2020/06/IMG_1.jpg", "../../../photos/2020/06/IMG_1.jpg",
        true, false, none, 7, true, 5⟩).1 = none) :=
  C4_link_removal_safety
    ⟨false, true, "albums/2020/06 Trip/0000_IMG_1.jpg",
      "photos/2020/06/IMG_1.jpg", "../../../photos/2020/06/IMG_1.jpg",
      true, false, none, 7, true, 5⟩ (by decide)

/-- Claim C7: for a link that is already correct — in symlink mode a symbolic
link whose stored target string equals the freshly computed relative path,
in hardlink mode an entry sharing the target media file's inode —
re-running the preserve-mode per-item step neither unlinks nor recreates
it. -/
theorem C7_preserve_no_churn (c : LinkCtx)
    (hp : c.preserve = true) (hm : c.mediaExists = true)
    (hl : c.linkExists = true)
    (hcorrect :
      (c.use_hardlinks = true ∧ c.linkInode = c.mediaInode) ∨
      (c.use_hardlinks = false ∧ c.linkIsSymlink = true ∧
        c.linkReadTarget = some c.relative_filename)) :
    processLink c = (none, false) := by
  rcases hcorrect with ⟨hh, hi⟩ | ⟨hh, hs, hr⟩
  · simp [processLink, hp, hm, hl, hh, hi]
  · simp [processLink, hp, hm, hl, hh, hs, hr]

/-- Witness for C7 at a concrete correct symlink and a concrete correct
hardlink. -/
theorem C7_witness :
    processLink ⟨false, true, "albums/2020/06 Trip/0000_IMG_1.jpg",
        "photos/2020/06/IMG_1.jpg", "../../../photos/2020/06/IMG_1.jpg",
        true, true, some "../../../photos/2020/06/IMG_1.jpg", 7, true, 5⟩ =
      (none, false) ∧
    processLink ⟨true, true, "albums/2020/06 Trip/0000_IMG_1.jpg",
        "photos/2020/06/IMG_1.jpg", "../../../photos/2020/06/IMG_1.jpg",
        true, false, none, 5, true, 5⟩ = (none, false) :=
  ⟨C7_preserve_no_churn _ rfl rfl rfl (Or.inr ⟨rfl, rfl, rfl⟩),
   C7_preserve_no_churn _ rfl rfl rfl (Or.inl ⟨rfl, rfl⟩)⟩

/-- The kind of a filesystem object under an album root; symlinks here are
the file links this program creates (is_dir is false for them). -/
inductive EntryKind where
  | dir
  | file
  | symlink
deriving DecidableEq, Repr

/-- One filesystem object under an album root as seen by `glob('**/*')`:
its absolute path as segments, and its kind. -/
structure FSEntry where
  path : List String
  kind : EntryKind
deriving DecidableEq, Repr

/-- The absolute path string of a segment list (a leading separator per
segment, as POSIX `str(path)` renders it). -/
def pathStr (p : List String) : String :=
  p.foldl (fun a s => a ++ "/" ++ s) ""

/-- Segment-wise test that the first path lies on the second's chain of
ancestors (or equals it). -/
def isUnder : List String → List String → Bool
  | [], _ => true
  | _ :: _, [] => false
  | a :: as, b :: bs => a == b && isUnder as bs

/-- `q` lies strictly below `p` in the directory tree. -/
def strictUnder (p q : List String) : Prop :=
  isUnder p q = true ∧ p.length < q.length

instance instDecStrictUnder (p q : List String) : Decidable (strictUnder p q) := by
  unfold strictUnder; infer_instance

/-- The per-entry removal test of the first pass of `_clean_up_stale_links`
(GoogleAlbumsSync.py lines 460-473): a non-directory entry whose path
string is not in the valid-link set is unlinked when it is a symlink, or —
in hardlink mode — when it exists at all. -/
def staleRemove (use_hardlinks : Bool) (valid : List String) (e : FSEntry) :
    Bool :=
  !decide (e.kind = EntryKind.dir) &&
  !decide (pathStr e.path ∈ valid) &&
  (decide (e.kind = EntryKind.symlink) || use_hardlinks)

/-- `path.is_dir()`: the filesystem holds a directory at this path. -/
def isDirAt (fs : List FSEntry) (p : List String) : Bool :=
  fs.any (fun e => decide (e.path = p) && decide (e.kind = EntryKind.dir))

/-- `any(path.iterdir())`: the filesystem holds some object strictly below
this path. -/
def hasEntryUnder (fs : List FSEntry) (p : List String) : Bool :=
  fs.any (fun e => decide (strictUnder p e.path))

/-- One step of the empty-directory sweep of `_clean_up_stale_links`
(lines 476-482): `rmdir` the object at `p` when it is a directory with
nothing below it. -/
def rmdirStep (fs : List FSEntry) (p : List String) : List FSEntry :=
  if isDirAt fs p && !hasEntryUnder fs p then
    fs.filter (fun e => !(decide (e.path = p) && decide (e.kind = EntryKind.dir)))
  else fs

/-- The empty-directory sweep over a processing order of paths. -/
def removeEmptyDirs (fs : List FSEntry) (order : List (List String)) :
    List FSEntry :=
  order.foldl rmdirStep fs

/-- The deepest-first processing order of the empty-directory sweep:
descending length of the path string (`sorted(..., key=len(str(p)),
reverse=True)`). -/
def deeperFirst (p q : List String) : Prop :=
  (pathStr q).length ≤ (pathStr p).length

instance : DecidableRel deeperFirst := fun p q => Nat.decLe _ _

instance : IsTotal (List String) deeperFirst :=
  ⟨fun p q => le_total (pathStr q).length (pathStr p).length⟩

instance : IsTrans (List String) deeperFirst :=
  ⟨fun _ _ _ hab hbc => le_trans hbc hab⟩

/-- `_clean_up_stale_links` (GoogleAlbumsSync.py lines 447-484) over one
root's tree: remove stale non-directory entries, then sweep directories in
descending path-string-length order, removing each one that is empty when
its turn comes. -/
def cleanUpStaleLinks (use_hardlinks : Bool) (valid : List String)
    (fs : List FSEntry) : List FSEntry :=
  let fs1 := fs.filter (fun e => !staleRemove use_hardlinks valid e)
  removeEmptyDirs fs1 (List.insertionSort deeperFirst (fs1.map (fun e => e.path)))

/-- The pruning phase of `create_album_content_links` (lines 432-440): run
only in preserve mode and only when the valid-link set built during the
pass is non-empty (an empty Python set is falsy), over the album tree and
the shared-album tree. -/
def pruneAlbumLinks (preserve use_hardlinks : Bool) (valid : List String)
    (albumsFs sharedFs : List FSEntry) : List FSEntry × List FSEntry :=
  if preserve && !valid.isEmpty then
    (cleanUpStaleLinks use_hardlinks valid albumsFs,
     cleanUpStaleLinks use_hardlinks valid sharedFs)
  else (albumsFs, sharedFs)

theorem isUnder_append : ∀ p q : List String, isUnder p q = true →
    ∃ r, q = p ++ r := by
  intro p
  induction p with
  | nil => intro q _; exact ⟨q, rfl⟩
  | cons a as ih =>
    intro q h
    cases q with
    | nil => simp [isUnder] at h
    | cons b bs =>
      rw [isUnder, Bool.and_eq_true, beq_iff_eq] at h
      obtain ⟨r, hr⟩ := ih bs h.2
      exact ⟨r, by rw [← h.1, hr]; rfl⟩

theorem foldl_slash_length : ∀ (r : List String) (init : String),
    init.length + r.length ≤
      (r.foldl (fun a s => a ++ "/" ++ s) init).length := by
  intro r
  induction r with
  | nil => intro init; simp
  | cons s rest ih =>
    intro init
    simp only [List.foldl_cons, List.length_cons]
    have h := ih (init ++ "/" ++ s)
    have h1 : ("/" : String).length = 1 := rfl
    have hlen : (init ++ "/" ++ s).length = init.length + 1 + s.length := by
      rw [String.length_append, String.length_append, h1]
    omega

theorem strictUnder_lt {p q : List String} (h : strictUnder p q) :
    (pathStr p).length < (pathStr q).length := by
  obtain ⟨hu, hlen⟩ := h
  obtain ⟨r, rfl⟩ := isUnder_append p q hu
  have hr : 0 < r.length := by
    rw [List.length_append] at hlen; omega
  have hfold : pathStr (p ++ r) =
      r.foldl (fun a s => a ++ "/" ++ s) (pathStr p) := by
    simp [pathStr, List.foldl_append]
  rw [hfold]
  have := foldl_slash_length r (pathStr p)
  omega

theorem rmdirStep_mem {fs : List FSEntry} {p : List String} {e : FSEntry}
    (h : e ∈ rmdirStep fs p) : e ∈ fs := by
  unfold rmdirStep at h
  split at h
  · exact (List.mem_filter.mp h).1
  · exact h

theorem removeEmptyDirs_mem :
    ∀ (order : List (List String)) (fs : List FSEntry) (e : FSEntry),
      e ∈ removeEmptyDirs fs order → e ∈ fs := by
  intro order
  induction order with
  | nil => intro fs e h; exact h
  | cons p rest ih =>
    intro fs e h
    exact rmdirStep_mem (ih (rmdirStep fs p) e h)

theorem rmdirStep_mem_of {fs : List FSEntry} {p : List String} {e : FSEntry}
    (he : e ∈ fs) (h : e.kind ≠ EntryKind.dir ∨ e.path ≠ p) :
    e ∈ rmdirStep fs p := by
  unfold rmdirStep
  split
  · refine List.mem_filter.mpr ⟨he, ?_⟩
    rcases h with h | h <;> simp [h]
  · exact he

theorem removeEmptyDirs_mem_of :
    ∀ (order : List (List String)) (fs : List FSEntry) (e : FSEntry),
      e ∈ fs → (e.kind ≠ EntryKind.dir ∨ e.path ∉ order) →
      e ∈ removeEmptyDirs fs order := by
  intro order
  induction order with
  | nil => intro fs e he _; exact he
  | cons p rest ih =>
    intro fs e he h
    have hstep : e ∈ rmdirStep fs p := by
      rcases h with h | h
      · exact rmdirStep_mem_of he (Or.inl h)
      · exact rmdirStep_mem_of he (Or.inr (fun hp => h (hp ▸ List.mem_cons_self _ _)))
    rcases h with h | h
    · exact ih _ _ hstep (Or.inl h)
    · exact ih _ _ hstep (Or.inr (fun hr => h (List.mem_cons_of_mem _ hr)))

theorem removeEmptyDirs_no_empty :
    ∀ (order : List (List String)) (fs : List FSEntry),
      List.Sorted deeperFirst order →
      (∀ e ∈ fs, e.kind = EntryKind.dir →
        e.path ∈ order ∨ ∃ c ∈ fs, strictUnder e.path c.path ∧
          (c.kind ≠ EntryKind.dir ∨ c.path ∉ order)) →
      ∀ e ∈ removeEmptyDirs fs order, e.kind = EntryKind.dir →
        ∃ c ∈ removeEmptyDirs fs order, strictUnder e.path c.path := by
  intro order
  induction order with
  | nil =>
    intro fs _ hinv e he hd
    rcases hinv e he hd with hin | ⟨c, hc, hsu, _⟩
    · exact absurd hin (List.not_mem_nil _)
    · exact ⟨c, hc, hsu⟩
  | cons p rest ih =>
    intro fs hsorted hinv
    have hsorted' : List.Sorted deeperFirst rest := hsorted.of_cons
    refine ih (rmdirStep fs p) hsorted' ?_
    intro e he' hd
    have he := rmdirStep_mem he'
    by_cases hpr : e.path ∈ rest
    · exact Or.inl hpr
    · rcases hinv e he hd with hin | ⟨c, hc, hsu, hcond⟩
      · have hep : e.path = p := by
          rcases List.mem_cons.mp hin with h | h
          · exact h
          · exact absurd h hpr
        have hdirat : isDirAt fs p = true :=
          List.any_eq_true.mpr ⟨e, he, by simp [hep, hd]⟩
        have hunder : hasEntryUnder fs p = true := by
          rcases Bool.eq_false_or_eq_true (hasEntryUnder fs p) with h | hnot
          · exact h
          · exfalso
            have hcond : (isDirAt fs p && !hasEntryUnder fs p) = true := by
              rw [hdirat, hnot]; rfl
            have hrm : rmdirStep fs p =
                fs.filter (fun x =>
                  !(decide (x.path = p) && decide (x.kind = EntryKind.dir))) := by
              unfold rmdirStep
              rw [if_pos hcond]
            rw [hrm] at he'
            have := (List.mem_filter.mp he').2
            simp [hep, hd] at this
        obtain ⟨c, hc, hcsu⟩ := List.any_eq_true.mp hunder
        have hsu' : strictUnder p c.path := of_decide_eq_true hcsu
        have hfs' : rmdirStep fs p = fs := by
          unfold rmdirStep
          rw [hunder]
          simp
        have hclen : (pathStr p).length < (pathStr c.path).length :=
          strictUnder_lt hsu'
        have hcnot : c.path ∉ rest := by
          intro hcin
          have hle := List.rel_of_sorted_cons hsorted _ hcin
          exact absurd hle (by unfold deeperFirst; omega)
        refine Or.inr ⟨c, ?_, ?_, Or.inr hcnot⟩
        · rw [hfs']; exact hc
        · rw [hep]; exact hsu'
      · rcases hcond with hck | hcp
        · exact Or.inr ⟨c, rmdirStep_mem_of hc (Or.inl hck), hsu, Or.inl hck⟩
        · have hcp' : c.path ≠ p ∧ c.path ∉ rest := by
            rw [List.mem_cons] at hcp
            push_neg at hcp
            exact hcp
          exact Or.inr ⟨c, rmdirStep_mem_of hc (Or.inr hcp'.1), hsu,
            Or.inr hcp'.2⟩

theorem cleanUp_no_stale (use_hardlinks : Bool) (valid : List String)
    (fs : List FSEntry) :
    ∀ e ∈ cleanUpStaleLinks use_hardlinks valid fs,
      staleRemove use_hardlinks valid e = false := by
  intro e he
  have h1 : e ∈ fs.filter (fun e => !staleRemove use_hardlinks valid e) :=
    removeEmptyDirs_mem _ _ _ he
  have := (List.mem_filter.mp h1).2
  simpa using this

theorem cleanUp_no_empty_dir (use_hardlinks : Bool) (valid : List String)
    (fs : List FSEntry) :
    ∀ e ∈ cleanUpStaleLinks use_hardlinks valid fs,
      e.kind = EntryKind.dir →
      ∃ c ∈ cleanUpStaleLinks use_hardlinks valid fs,
        strictUnder e.path c.path := by
  have h := removeEmptyDirs_no_empty
    (List.insertionSort deeperFirst
      ((fs.filter (fun e => !staleRemove use_hardlinks valid e)).map
        (fun e => e.path)))
    (fs.filter (fun e => !staleRemove use_hardlinks valid e))
    (List.sorted_insertionSort deeperFirst _)
    (fun e he _ => Or.inl
      ((List.perm_insertionSort deeperFirst _).mem_iff.mpr
        (List.mem_map_of_mem _ he)))
  exact h

/-- Claim C6 counterexample: a preserve-mode run whose valid-link set came out
empty (no album files produced links) skips the pruning phase entirely —
`if self._preserve_album_links and valid_links:` is false for an empty set
— so a stale symlink under the album root survives even though it is not
in the valid-link set and the claim says it must have been deleted. -/
theorem C6_counterexample :
    pruneAlbumLinks true false []
        [⟨["albums", "stale.jpg"], EntryKind.symlink⟩] [] =
      ([⟨["albums", "stale.jpg"], EntryKind.symlink⟩], []) ∧
    staleRemove false [] ⟨["albums", "stale.jpg"], EntryKind.symlink⟩ =
      true := by
  constructor <;> rfl

/-- Claim C6 (amended): after one preserve-mode run of
`create_album_content_links` whose valid-link set is NON-EMPTY, every
entry remaining under the album root or shared-album root satisfies the
stale-removal test negatively (so every symbolic link — or, in hardlink
mode, any non-directory entry — whose path is not in the valid-link set
has been deleted), and no directory is left empty (the deepest-first sweep
removed every directory emptied by the pass); when the valid-link set is
empty the pruning phase is skipped. -/
theorem C6_amended (use_hardlinks : Bool) (valid : List String)
    (albumsFs sharedFs : List FSEntry) (hv : valid ≠ []) :
    (∀ e ∈ (pruneAlbumLinks true use_hardlinks valid albumsFs sharedFs).1,
      staleRemove use_hardlinks valid e = false) ∧
    (∀ e ∈ (pruneAlbumLinks true use_hardlinks valid albumsFs sharedFs).1,
      e.kind = EntryKind.dir →
      ∃ c ∈ (pruneAlbumLinks true use_hardlinks valid albumsFs sharedFs).1,
        strictUnder e.path c.path) ∧
    (∀ e ∈ (pruneAlbumLinks true use_hardlinks valid albumsFs sharedFs).2,
      staleRemove use_hardlinks valid e = false) ∧
    (∀ e ∈ (pruneAlbumLinks true use_hardlinks valid albumsFs sharedFs).2,
      e.kind = EntryKind.dir →
      ∃ c ∈ (pruneAlbumLinks true use_hardlinks valid albumsFs sharedFs).2,
        strictUnder e.path c.path) := by
  have hne : valid.isEmpty = false := by
    cases valid with
    | nil => exact absurd rfl hv
    | cons a l => rfl
  have hcond : (true && !valid.isEmpty) = true := by rw [hne]; rfl
  have hprune : pruneAlbumLinks true use_hardlinks valid albumsFs sharedFs =
      (cleanUpStaleLinks use_hardlinks valid albumsFs,
       cleanUpStaleLinks use_hardlinks valid sharedFs) := by
    unfold pruneAlbumLinks
    rw [if_pos hcond]
  rw [hprune]
  exact ⟨cleanUp_no_stale use_hardlinks valid albumsFs,
    cleanUp_no_empty_dir use_hardlinks valid albumsFs,
    cleanUp_no_stale use_hardlinks valid sharedFs,
    cleanUp_no_empty_dir use_hardlinks valid sharedFs⟩

/-- Witness for C6 (amended) on a concrete tree holding one valid link, one
stale link and the directory that the stale link's removal leaves empty. -/
theorem C6_witness :
    (∀ e ∈ (pruneAlbumLinks true false ["/albums/2020/06 Trip/0000_IMG_1.jpg"]
        [⟨["albums", "2020"], EntryKind.dir⟩,
         ⟨["albums", "2020", "06 Trip"], EntryKind.dir⟩,
         ⟨["albums", "2020", "06 Trip", "0000_IMG_1.jpg"], EntryKind.symlink⟩,
         ⟨["albums", "old"], EntryKind.dir⟩,
         ⟨["albums", "old", "stale.jpg"], EntryKind.symlink⟩] []).1,
      staleRemove false ["/albums/2020/06 Trip/0000_IMG_1.jpg"] e = false) ∧
    (∀ e ∈ (pruneAlbumLinks true false ["/albums/2020/06 Trip/0000_IMG_1.jpg"]
        [⟨["albums", "2020"], EntryKind.dir⟩,
         ⟨["albums", "2020", "06 Trip"], EntryKind.dir⟩,
         ⟨["albums", "2020", "06 Trip", "0000_IMG_1.jpg"], EntryKind.symlink⟩,
         ⟨["albums", "old"], EntryKind.dir⟩,
         ⟨["albums", "old", "stale.jpg"], EntryKind.symlink⟩] []).1,
      e.kind = EntryKind.dir →
      ∃ c ∈ (pruneAlbumLinks true false ["/albums/2020/06 Trip/0000_IMG_1.jpg"]
        [⟨["albums", "2020"], EntryKind.dir⟩,
         ⟨["albums", "2020", "06 Trip"], EntryKind.dir⟩,
         ⟨["albums", "2020", "06 Trip", "0000_IMG_1.jpg"], EntryKind.symlink⟩,
         ⟨["albums", "old"], EntryKind.dir⟩,
         ⟨["albums", "old", "stale.jpg"], EntryKind.symlink⟩] []).1,
        strictUnder e.path c.path) ∧
    (∀ e ∈ (pruneAlbumLinks true false ["/albums/2020/06 Trip/0000_IMG_1.jpg"]
        [⟨["albums", "2020"], EntryKind.dir⟩,
         ⟨["albums", "2020", "06 Trip"], EntryKind.dir⟩,
         ⟨["albums", "2020", "06 Trip", "0000_IMG_1.jpg"], EntryKind.symlink⟩,
         ⟨["albums", "old"], EntryKind.dir⟩,
         ⟨["albums", "old", "stale.jpg"], EntryKind.symlink⟩] []).2,
      staleRemove false ["/albums/2020/06 Trip/0000_IMG_1.jpg"] e = false) ∧
    (∀ e ∈ (pruneAlbumLinks true false ["/albums/2020/06 Trip/0000_IMG_1.jpg"]
        [⟨["albums", "2020"], EntryKind.dir⟩,
         ⟨["albums", "2020", "06 Trip"], EntryKind.dir⟩,
         ⟨["albums", "2020", "06 Trip", "0000_IMG_1.jpg"], EntryKind.symlink⟩,
         ⟨["albums", "old"], EntryKind.dir⟩,
         ⟨["albums", "old", "stale.jpg"], EntryKind.symlink⟩] []).2,
      e.kind = EntryKind.dir →
      ∃ c ∈ (pruneAlbumLinks true false ["/albums/2020/06 Trip/0000_IMG_1.jpg"]
        [⟨["albums", "2020"], EntryKind.dir⟩,
         ⟨["albums", "2020", "06 Trip"], EntryKind.dir⟩,
         ⟨["albums", "2020", "06 Trip", "0000_IMG_1.jpg"], EntryKind.symlink⟩,
         ⟨["albums", "old"], EntryKind.dir⟩,
         ⟨["albums", "old", "stale.jpg"], EntryKind.symlink⟩] []).2,
        strictUnder e.path c.path) :=
  C6_amended false ["/albums/2020/06 Trip/0000_IMG_1.jpg"]
    [⟨["albums", "2020"], EntryKind.dir⟩,
     ⟨["albums", "2020", "06 Trip"], EntryKind.dir⟩,
     ⟨["albums", "2020", "06 Trip", "0000_IMG_1.jpg"], EntryKind.symlink⟩,
     ⟨["albums", "old"], EntryKind.dir⟩,
     ⟨["albums", "old", "stale.jpg"], EntryKind.symlink⟩] []
    (by decide)

end GPhotosSync
